import Mathlib

/-!
Verification development for the gnim-utils helper library (src/index.ts).

The repository is a set of adapter functions between a reactive accessor
library (gnim) and a notifying property-host object model (GObject).  The
functions of src/index.ts are embedded below, one Lean definition per
source construct.  The two external collaborator services (accessors and
property hosts) are not part of the repository; they are modelled from
the interface description in the specification (sections 2 and 6):
an accessor exposes a pull operation and a push subscription, and a host
exposes connect/disconnect/notify with kebab-case change-event names.
-/

namespace GnimUtils

/-- Model of a JavaScript runtime value, covering the value shapes the
helpers manipulate: undefined, null, booleans, numbers, strings and
arrays. -/
inductive JSVal : Type where
  | undef : JSVal
  | null : JSVal
  | bool : Bool → JSVal
  | num : Int → JSVal
  | str : String → JSVal
  | arr : List JSVal → JSVal

/-- Model of the JavaScript Array.isArray test. -/
def isArray : JSVal → Bool
  | .arr _ => true
  | _ => false

/-- Length of a JavaScript array value (0 on non-arrays; only ever used
under an isArray guard, mirroring the source). -/
def arrayLength : JSVal → Nat
  | .arr xs => xs.length
  | _ => 0

/-- Model of the JavaScript Boolean(v) coercion: undefined, null, false,
0 and the empty string are falsy; every other modelled value is truthy
(a JavaScript array object is always truthy). -/
def jsTruthy : JSVal → Bool
  | .undef => false
  | .null => false
  | .bool b => b
  | .num n => n != 0
  | .str s => s != ""
  | .arr _ => true

/-- Embedding of the camelCase to kebab-case rename used at each call
site of the source, prop.replace with the regex [A-Z] replaced by a dash
followed by the lowercased letter (src/index.ts lines 62, 121, 182, 270). -/
def kebab (s : String) : String :=
  String.mk (s.data.foldr
    (fun c acc => if c.isUpper then '-' :: c.toLower :: acc else c :: acc) [])

/-- Modelled from the spec: the reactive accessor capability of the
external gnim library, reduced to its pull operation.  The state
parameter stands for the state of whatever the accessor reads from, so a
derived accessor is a function composition on get. -/
structure Acc (σ : Type) (α : Type) : Type where
  get : σ → α

/-- Modelled from the spec: derived-accessor creation, gnim
Accessor.prototype.as, mapping a pure function over the current value. -/
def Acc.as {σ α β : Type} (a : Acc σ α) (f : α → β) : Acc σ β :=
  ⟨fun s => f (a.get s)⟩

/-- Embedding of toBoolean (src/index.ts lines 25-33).  The instanceof
Accessor test of the source becomes the Sum discrimination; the accessor
branch maps the coercion rule over the accessor with Accessor.as, and
the plain branches apply it directly. -/
def toBoolean {σ : Type} (variable_ : Sum (Acc σ JSVal) JSVal) :
    Sum (Acc σ Bool) Bool :=
  match variable_ with
  | .inl a => .inl (a.as (fun v =>
      if isArray v then decide (arrayLength v > 0) else jsTruthy v))
  | .inr v =>
      .inr (if isArray v then decide (arrayLength v > 0) else jsTruthy v)

/-- Plain-value boolean coercion rule of toBoolean, factored out so that
theorems can relate the accessor branch to the plain branch. -/
def toBooleanVal (v : JSVal) : Bool :=
  if isArray v then decide (arrayLength v > 0) else jsTruthy v

/-! Model of the notifying property host service (GObject).  Modelled
from the spec, section 6: connect(eventName, handler) returns an id,
disconnect(id) removes the handler, and disconnecting on a host that has
already been disposed raises an error.  Handler ids are drawn from a
counter starting at 1, so a defined id is never 0 (GLib handler ids are
positive), which is what the truthiness guard id && ... of the source
relies on. -/

/-- Modelled from the spec: a notifying property host.  hid is the
object identity, props the current named properties, disposed whether
the underlying object has been finalized. -/
structure Host : Type where
  hid : Nat
  props : List (String × JSVal)
  disposed : Bool

/-- Reading a named property of a host: the stored value when present,
otherwise the JavaScript undefined. -/
def hostGet (g : Host) (p : String) : JSVal :=
  match g.props.find? (fun kv => kv.1 == p) with
  | some kv => kv.2
  | none => (.undef)

/-- Model of Object.hasOwn on a host: whether the named property is
present on the object. -/
def hostHasOwn (g : Host) (p : String) : Bool :=
  g.props.any (fun kv => kv.1 == p)

/-- An active signal connection: handler id, host identity it lives on,
and the event name it listens to. -/
structure Conn : Type where
  connId : Nat
  hostId : Nat
  event : String
deriving DecidableEq

/-- Modelled from the spec: the ledger of active signal connections
across all hosts, with the id counter. -/
structure ConnLedger : Type where
  nextId : Nat
  active : List Conn
deriving DecidableEq

/-- Modelled from the spec: host.connect(eventName, handler) returns a
fresh handler id and records the connection. -/
def ConnLedger.connect (L : ConnLedger) (g : Host) (ev : String) :
    Nat × ConnLedger :=
  (L.nextId, ⟨L.nextId + 1, L.active ++ [⟨L.nextId, g.hid, ev⟩]⟩)

/-- Modelled from the spec: host.disconnect(id).  On a disposed host the
call raises (error result); otherwise it removes the connection with
that id on that host, and is a no-op when no such connection exists
(disconnecting a foreign id only warns in the object system, it does not
detach anything from another host). -/
def ConnLedger.disconnect (L : ConnLedger) (g : Host) (cid : Nat) :
    Except Unit ConnLedger :=
  if g.disposed then .error ()
  else .ok ⟨L.nextId,
    L.active.filter (fun c => !(c.connId == cid && c.hostId == g.hid))⟩

/-- The empty connection ledger, with the id counter at 1. -/
def emptyLedger : ConnLedger := ⟨1, []⟩

/-! Embedding of createSecureBinding (src/index.ts lines 46-71).  The
returned Accessor is represented by its three components: the getter,
the subscribe setup, and the teardown the setup returns. -/

/-- Getter of createSecureBinding (lines 55-57): the conjunction
gobj && Object.hasOwn(gobj, prop) guards the property read; an absent
host (the Option none, modelling null or undefined) or a missing
property yields the default value. -/
def secureBindingGet (gobj : Option Host) (prop : String) (defaultValue : JSVal) :
    JSVal :=
  match gobj with
  | some g => if hostHasOwn g prop then hostGet g prop else defaultValue
  | none => defaultValue

/-- Subscribe setup of createSecureBinding (lines 61-63): connects to
the kebab-case change event of the property on the host and keeps the
handler id. -/
def secureBindingSetup (L : ConnLedger) (gobj : Host) (prop : String) :
    Nat × ConnLedger :=
  L.connect gobj ("notify::" ++ kebab prop)

/-- Teardown of createSecureBinding (lines 64-68): gobj.disconnect(id)
wrapped in try/catch, so an error from disconnecting an already-disposed
host is swallowed and the ledger is left as it was. -/
def secureBindingTeardown (L : ConnLedger) (gobj : Host) (id : Nat) :
    ConnLedger :=
  match L.disconnect gobj id with
  | .ok L2 => L2
  | .error _ => L

/-! Embedding of createAccessorBinding (src/index.ts lines 92-133).  The
closure state of one call to the function is captured as a record: the
mutable gobj cell, whether the notify function has been assigned (it is
assigned only when the subscribe setup of the returned Accessor runs),
the handler id of the inner property-change listener, the connection
ledger, how many times the dependents of the returned accessor have been
notified, and whether the subscription on the outer accessor (baseSub,
attached in the body of the function itself) is still active. -/

/-- Closure state of one nested property binding. -/
structure ABState : Type where
  gobj : Option Host
  notifySet : Bool
  innerId : Option Nat
  ledger : ConnLedger
  notifCount : Nat
  baseSubActive : Bool

/-- Body of createAccessorBinding (lines 99-113): gobj is initialized to
the current value of the outer accessor, and baseSub is attached to the
outer accessor immediately, before the returned accessor has any
subscriber.  No inner listener exists yet and notify is still
unassigned. -/
def abInit (outer : Option Host) (L : ConnLedger) : ABState :=
  { gobj := outer, notifySet := false, innerId := none, ledger := L,
    notifCount := 0, baseSubActive := true }

/-- Subscribe setup of the returned accessor (lines 117-123): assigns
notify, then id = gobj?.connect(notify::kebab(prop), ...); when gobj is
absent the optional chaining leaves id undefined and nothing is
connected. -/
def abSubscribe (prop : String) (s : ABState) : ABState :=
  match s.gobj with
  | some g =>
      let r := s.ledger.connect g ("notify::" ++ kebab prop)
      { s with notifySet := true, innerId := some r.1, ledger := r.2 }
  | none => { s with notifySet := true, innerId := none }

/-- Callback of baseSub (lines 102-113), run when the outer accessor
changes, with newOuter the new value of accessorObject.get().  When the
new base is falsy, gobj is cleared; otherwise gobj becomes the new base.
Either way notify!() is called exactly once; when notify was never
assigned (no subscriber yet) that call throws a TypeError, modelled by
the error result.  When baseSub is no longer active the callback does
not run and the state is unchanged.  The inner listener and the ledger
are not touched: the code neither disconnects the old host nor connects
the new one. -/
def abOuterChange (newOuter : Option Host) (s : ABState) :
    Except Unit ABState :=
  if s.baseSubActive then
    if s.notifySet then
      .ok { s with gobj := newOuter, notifCount := s.notifCount + 1 }
    else .error ()
  else .ok s

/-- Getter of the returned accessor (line 116): gobj![prop].  The
non-null assertion is erased at runtime, so when gobj is undefined the
property read throws a TypeError, modelled by none; otherwise the value
of the property on the cached host is returned (undefined when the host
lacks it). -/
def abGet (prop : String) (s : ABState) : Option JSVal :=
  match s.gobj with
  | some g => some (hostGet g prop)
  | none => none

/-- Teardown returned by the subscribe setup (lines 125-128):
id && gobj?.disconnect(id) attempts to disconnect the remembered handler
id on whatever host gobj currently caches (not necessarily the host the
listener was connected to); a disconnect error propagates, and baseSub()
is then never reached.  When both guards pass or the disconnect
succeeds, baseSub() detaches the outer subscription. -/
def abTeardown (s : ABState) : Except Unit ABState :=
  match s.innerId, s.gobj with
  | some cid, some g =>
      match s.ledger.disconnect g cid with
      | .ok L2 => .ok { s with ledger := L2, baseSubActive := false }
      | .error e => .error e
  | _, _ => .ok { s with baseSubActive := false }

/-! Embedding of createSecureAccessorBinding (src/index.ts lines
150-194).  Lines 160-174 and 178-190 repeat the body of
createAccessorBinding verbatim (initialization, baseSub callback,
subscribe setup and teardown), so those components are shared with the
ab functions; only the getter differs. -/

/-- Body of createSecureAccessorBinding (lines 160-174), identical to
the body of createAccessorBinding. -/
def sabInit (outer : Option Host) (L : ConnLedger) : ABState :=
  abInit outer L

/-- Subscribe setup of createSecureAccessorBinding (lines 178-184),
identical to the setup of createAccessorBinding. -/
def sabSubscribe (prop : String) (s : ABState) : ABState :=
  abSubscribe prop s

/-- Callback of baseSub in createSecureAccessorBinding (lines 163-174),
identical to the callback in createAccessorBinding. -/
def sabOuterChange (newOuter : Option Host) (s : ABState) :
    Except Unit ABState :=
  abOuterChange newOuter s

/-- Getter of createSecureAccessorBinding (line 177): the ternary
gobj ? gobj[prop] : defaultValue returns the property of the cached host
when one is present and the default value otherwise; unlike the getter
of createAccessorBinding it never throws on an absent host. -/
def sabGet (prop : String) (defaultValue : JSVal) (s : ABState) : JSVal :=
  match s.gobj with
  | some g => hostGet g prop
  | none => defaultValue

/-- Teardown of createSecureAccessorBinding (lines 186-189), identical
to the teardown of createAccessorBinding. -/
def sabTeardown (s : ABState) : Except Unit ABState :=
  abTeardown s

/-- Scope cleanup registered by createScopedConnection (line 299): a
bare gobj.disconnect(id) with no try/catch, so an error from a disposed
host propagates. -/
def scopedConnectionCleanup (L : ConnLedger) (gobj : Host) (id : Nat) :
    Except Unit ConnLedger :=
  L.disconnect gobj id

/-! Embedding of transformWidget (src/index.ts lines 211-229).  The two
rendering mechanisms of the external library are modelled from the spec:
For is the keyed list-reconciliation mechanism, taking the array
accessor and a children function receiving each item together with an
index accessor; With is the single-slot reconciliation mechanism,
re-rendering its single child from the current value.  E is the type of
rendered elements. -/

/-- Second argument the renderer receives: JavaScript leaves it
undefined when the call site passes only the item, and the keyed list
mechanism passes an index accessor. -/
inductive IdxArg (σ : Type) : Type where
  | undef : IdxArg σ
  | iacc : Acc σ JSVal → IdxArg σ

/-- Modelled from the spec: the possible render results, one constructor
per rendering mechanism plus the two plain shapes. -/
inductive JSXNode (σ E : Type) : Type where
  | forKeyed : Acc σ JSVal → (JSVal → Acc σ JSVal → E) → JSXNode σ E
  | withSlot : Acc σ JSVal → (JSVal → E) → JSXNode σ E
  | fragment : List E → JSXNode σ E
  | single : E → JSXNode σ E

/-- Embedding of transformWidget.  The instanceof Accessor test is the
Sum discrimination; for an accessor the dispatch tests
Array.isArray(v.get()) on the current value (state s); the For children
(cval, i) => fn(cval, i) forwards the index accessor, the With children
is fn itself, which the single-slot mechanism calls with the value only
so the index argument is undefined; a plain array maps
val => fn(val) over the items (index argument undefined), and a plain
scalar is a single call fn(v). -/
def transformWidget {σ E : Type} (s : σ)
    (v : Sum (Acc σ JSVal) JSVal) (fn : JSVal → IdxArg σ → E) :
    JSXNode σ E :=
  match v with
  | .inl a =>
      if isArray (a.get s) then
        .forKeyed a (fun cval i => fn cval (.iacc i))
      else
        .withSlot a (fun cval => fn cval .undef)
  | .inr w =>
      match w with
      | .arr xs => .fragment (xs.map (fun val => fn val .undef))
      | _ => .single (fn w .undef)

/-! Embedding of construct (src/index.ts lines 257-282).  The target
instance is a record of named fields plus the isGObject test result and
a log of the notify calls emitted on it; props is an association list
(Object.keys iterates the own keys of the record in order), each entry
either a plain value or an accessor; accessors are identified by an
index into an environment giving their current values. -/

/-- Target instance of construct: its fields, whether it is a GObject
instance, and the change notifications emitted on it so far (in
order). -/
structure Obj : Type where
  fields : List (String × JSVal)
  isGObj : Bool
  notifLog : List String

/-- JavaScript assignment klass[k] = v on the field record: updates the
binding in place or appends a new one. -/
def setField : List (String × JSVal) → String → JSVal → List (String × JSVal)
  | [], k, v => [(k, v)]
  | (k2, v2) :: rest, k, v =>
      if k2 == k then (k, v) :: rest else (k2, v2) :: setField rest k v

/-- Reading a field of the target (undefined when never assigned). -/
def getField (fs : List (String × JSVal)) (k : String) : JSVal :=
  match fs.find? (fun kv => kv.1 == k) with
  | some kv => kv.2
  | none => (.undef)

/-- One entry of the props record: a plain value or an accessor (by
index into the accessor environment). -/
inductive PropVal : Type where
  | plain : JSVal → PropVal
  | acc : Nat → PropVal

/-- Body of the forEach of construct (lines 262-279) for one entry, with
accVal the current values of the accessors.  The checks run in source
order: v === undefined skips the entry; v instanceof Accessor pushes the
release of the new subscription (recorded as the key and accessor index)
and then assigns the current accessor value to the field; otherwise the
plain value is assigned.  No notify is emitted here: the notify call of
the source sits inside the subscription callback only. -/
def constructStep (accVal : Nat → JSVal) (st : Obj × List (String × Nat))
    (kv : String × PropVal) : Obj × List (String × Nat) :=
  match kv.2 with
  | .plain .undef => st
  | .acc i =>
      ({ st.1 with fields := setField st.1.fields kv.1 (accVal i) },
        st.2 ++ [(kv.1, i)])
  | .plain v =>
      ({ st.1 with fields := setField st.1.fields kv.1 v }, st.2)

/-- Embedding of construct (lines 257-282): folds the entry handler over
the props record and returns the updated target together with the subs
array of release records, in creation order. -/
def construct (klass : Obj) (props : List (String × PropVal))
    (accVal : Nat → JSVal) : Obj × List (String × Nat) :=
  props.foldl (constructStep accVal) (klass, [])

/-- Subscription callback pushed by construct (lines 267-271) for the
entry of key k and accessor i, run on a later accessor change with
accVal the accessor values at that time: re-assigns the field from the
accessor and, when the target is a GObject instance, emits
klass.notify with the kebab-case name of the key. -/
def constructCallback (k : String) (i : Nat) (accVal : Nat → JSVal)
    (klass : Obj) : Obj :=
  let k2 := { klass with fields := setField klass.fields k (accVal i) }
  if k2.isGObj then { k2 with notifLog := k2.notifLog ++ [kebab k] } else k2

/-- The release records construct creates: one per accessor-valued
entry, in order. -/
def constructSubsOf (props : List (String × PropVal)) : List (String × Nat) :=
  props.filterMap (fun kv =>
    match kv.2 with
    | .acc i => some (kv.1, i)
    | .plain _ => none)

/-! Concrete instances used by the testable-property scenarios of the
spec and by the counterexamples. -/

/-- Host with property p = 5 (spec, section 8, defaulted property
binding scenario). -/
def hostP5 : Host := ⟨0, [("p", .num 5)], false⟩

/-- Host A with property x = 1 (spec, section 8, nested property binding
scenario). -/
def hostA : Host := ⟨0, [("x", .num 1)], false⟩

/-- Host B with property x = 2 (spec, section 8, nested property binding
scenario). -/
def hostB : Host := ⟨1, [("x", .num 2)], false⟩

/-- An already-disposed host. -/
def hostGone : Host := ⟨2, [], true⟩

/-- Demonstration accessor whose current value is an (empty) array. -/
def demoAcc : Acc Unit JSVal := ⟨fun _ => .arr []⟩

/-- Demonstration renderer for the widget transform. -/
def demoFn : JSVal → IdxArg Unit → Nat := fun _ _ => 0

/-- Demonstration target instance for construct: no fields yet, not a
GObject instance, empty notification log. -/
def demoObj : Obj := ⟨[], false, []⟩

/-- Demonstration GObject target instance for construct. -/
def demoGObj : Obj := ⟨[], true, []⟩

/-- Demonstration props record, the bulk-construction scenario of the
spec, section 8: a plain entry a = 1 and an accessor entry b whose
accessor (index 0) currently holds 2. -/
def demoProps : List (String × PropVal) := [("a", .plain (.num 1)), ("b", .acc 0)]

/-- Demonstration accessor environment at construction time. -/
def demoEnv : Nat → JSVal := fun _ => .num 2

/-- Demonstration accessor environment after the accessor updated to 3. -/
def demoEnv3 : Nat → JSVal := fun _ => .num 3

/-- C1: reading the accessor returned by createSecureBinding yields the
current value of the property when the host is present and has it, and
the default value when the host is absent or the property no longer
exists on it; for a host with p = 5 and default -1, reading returns 5. -/
theorem secureBinding_read_correct :
    (∀ (g : Host) (p : String) (d : JSVal), hostHasOwn g p = true →
        secureBindingGet (some g) p d = hostGet g p) ∧
    (∀ (g : Host) (p : String) (d : JSVal), hostHasOwn g p = false →
        secureBindingGet (some g) p d = d) ∧
    (∀ (p : String) (d : JSVal), secureBindingGet none p d = d) ∧
    secureBindingGet (some hostP5) "p" (.num (-1)) = .num 5 := by
  refine ⟨fun g p d h => ?_, fun g p d h => ?_, fun p d => rfl, rfl⟩
  · simp [secureBindingGet, h]
  · simp [secureBindingGet, h]

/-- Witness for C1 at concrete inputs: host with p = 5, default -1. -/
theorem secureBinding_read_correct_witness :
    secureBindingGet (some hostP5) "p" (.num (-1)) = hostGet hostP5 "p" ∧
    secureBindingGet (some hostP5) "q" (.num (-1)) = .num (-1) :=
  ⟨secureBinding_read_correct.1 hostP5 "p" (.num (-1)) (by decide),
   secureBinding_read_correct.2.1 hostP5 "q" (.num (-1)) (by decide)⟩

/-- C8: the boolean coercion yields false on the empty string, 0, false,
undefined, null and the empty array; true on a non-empty array; standard
truthiness on every non-array value; and on an accessor input it yields
a derived accessor applying the same rule to the upstream value. -/
theorem toBoolean_correct :
    toBooleanVal (.str "") = false ∧
    toBooleanVal (.num 0) = false ∧
    toBooleanVal (.bool false) = false ∧
    toBooleanVal .undef = false ∧
    toBooleanVal .null = false ∧
    toBooleanVal (.arr []) = false ∧
    (∀ (x : JSVal) (xs : List JSVal), toBooleanVal (.arr (x :: xs)) = true) ∧
    toBooleanVal (.str "x") = true ∧
    toBooleanVal (.num 1) = true ∧
    toBooleanVal (.bool true) = true ∧
    (∀ (v : JSVal), isArray v = false → toBooleanVal v = jsTruthy v) ∧
    (∀ (v : JSVal), toBoolean (σ := Unit) (.inr v) = .inr (toBooleanVal v)) ∧
    (∀ (σ : Type) (a : Acc σ JSVal) (s : σ), ∃ b : Acc σ Bool,
        toBoolean (.inl a) = .inl b ∧ b.get s = toBooleanVal (a.get s)) := by
  refine ⟨rfl, rfl, rfl, rfl, rfl, rfl, fun x xs => by simp [toBooleanVal, isArray, arrayLength],
    rfl, rfl, rfl, fun v h => by simp [toBooleanVal, h], fun v => rfl,
    fun σ a s => ⟨_, rfl, rfl⟩⟩

/-- Witness for C8 at concrete inputs: a non-array value coerces by
standard truthiness, a non-empty array coerces to true. -/
theorem toBoolean_correct_witness :
    toBooleanVal (.num 7) = jsTruthy (.num 7) ∧
    toBooleanVal (.arr [.num 1]) = true := by
  obtain ⟨-, -, -, -, -, -, harr, -, -, -, htruthy, -, -⟩ := toBoolean_correct
  exact ⟨htruthy (.num 7) rfl, harr (.num 1) []⟩

/-- C9: transformWidget dispatches by shape: an accessor currently
holding an array goes to the keyed list mechanism with the item and an
index accessor passed to the renderer; an accessor of a scalar goes to
the single-slot mechanism; a plain array maps the renderer eagerly over
the items; a plain scalar is one renderer call. -/
theorem transformWidget_dispatch_correct :
    ∀ (σ E : Type) (s : σ) (fn : JSVal → IdxArg σ → E),
      (∀ (a : Acc σ JSVal), isArray (a.get s) = true →
          transformWidget s (.inl a) fn =
            .forKeyed a (fun cval i => fn cval (.iacc i))) ∧
      (∀ (a : Acc σ JSVal), isArray (a.get s) = false →
          transformWidget s (.inl a) fn =
            .withSlot a (fun cval => fn cval .undef)) ∧
      (∀ (xs : List JSVal),
          transformWidget s (.inr (.arr xs)) fn =
            .fragment (xs.map (fun val => fn val .undef))) ∧
      (∀ (v : JSVal), isArray v = false →
          transformWidget s (.inr v) fn = .single (fn v .undef)) := by
  intro σ E s fn
  refine ⟨fun a h => by simp [transformWidget, h], fun a h => by simp [transformWidget, h],
    fun xs => rfl, fun v h => ?_⟩
  cases v <;> first | rfl | simp [isArray] at h

/-- Witness for C9 at concrete inputs: an accessor of an array goes to
the keyed list mechanism, a plain scalar is a single call. -/
theorem transformWidget_dispatch_correct_witness :
    transformWidget () (.inl demoAcc) demoFn =
      .forKeyed demoAcc (fun cval i => demoFn cval (.iacc i)) ∧
    transformWidget () (.inr (.num 3)) demoFn = .single (demoFn (.num 3) .undef) :=
  ⟨(transformWidget_dispatch_correct Unit Nat () demoFn).1 demoAcc rfl,
   (transformWidget_dispatch_correct Unit Nat () demoFn).2.2.2 (.num 3) rfl⟩

/-- C6: for the defaulted nested binding, whenever the cached resolved
host is absent the getter returns the default value rather than
undefined, and a subscribed binding whose outer accessor transitions
from a resolved host to absent fires exactly one notification after
which the derived value is the default. -/
theorem secureAccessorBinding_default_correct :
    (∀ (p : String) (d : JSVal) (ns : Bool) (ii : Option Nat)
        (L : ConnLedger) (nc : Nat) (ba : Bool),
        sabGet p d ⟨none, ns, ii, L, nc, ba⟩ = d) ∧
    (∀ (g : Host) (p : String) (d : JSVal) (L : ConnLedger),
        (sabSubscribe p (sabInit (some g) L)).notifCount = 0 ∧
        (sabOuterChange none (sabSubscribe p (sabInit (some g) L))).map
          (fun s => sabGet p d s) = .ok d ∧
        (sabOuterChange none (sabSubscribe p (sabInit (some g) L))).map
          (fun s => s.notifCount) = .ok 1) :=
  ⟨fun _ _ _ _ _ _ _ => rfl, fun _ _ _ _ => ⟨rfl, rfl, rfl⟩⟩

/-- C2 counterexample: a subscribed createAccessorBinding over a host
with x = 1 whose outer accessor then resolves to an absent value.  The
claim says the derived value becomes undefined; in the source the getter
is gobj![prop] with the non-null assertion erased at runtime, so the
read throws a TypeError (modelled by none) instead of yielding
undefined. -/
theorem accessorBinding_absent_read_throws_cex :
    (abOuterChange none (abSubscribe "x" (abInit (some hostA) emptyLedger))).map
      (abGet "x") = .ok none ∧
    ¬ (abOuterChange none (abSubscribe "x" (abInit (some hostA) emptyLedger))).map
      (abGet "x") = .ok (some JSVal.undef) := by
  refine ⟨rfl, fun h => ?_⟩
  have h2 : (none : Option JSVal) = some JSVal.undef := Except.ok.inj h
  exact Option.noConfusion h2

/-- C2 amended: for a subscribed createAccessorBinding, an outer change
to an absent resolved host notifies the dependents exactly once but a
subsequent read of the derived accessor throws a TypeError rather than
yielding undefined; an outer change to a present resolved host notifies
exactly once and the read returns the named property of the new host. -/
theorem accessorBinding_outer_change_amended :
    ∀ (A : Host) (p : String) (L : ConnLedger),
      abGet p (abSubscribe p (abInit (some A) L)) = some (hostGet A p) ∧
      (abSubscribe p (abInit (some A) L)).notifCount = 0 ∧
      (abOuterChange none (abSubscribe p (abInit (some A) L))).map
        (abGet p) = .ok none ∧
      (abOuterChange none (abSubscribe p (abInit (some A) L))).map
        (fun s => s.notifCount) = .ok 1 ∧
      ∀ (B : Host),
        (abOuterChange (some B) (abSubscribe p (abInit (some A) L))).map
          (abGet p) = .ok (some (hostGet B p)) ∧
        (abOuterChange (some B) (abSubscribe p (abInit (some A) L))).map
          (fun s => s.notifCount) = .ok 1 :=
  fun _ _ _ => ⟨rfl, rfl, rfl, rfl, fun _ => ⟨rfl, rfl⟩⟩

/-- C3 counterexample: subscribed nested binding over host A (identity
0, x = 1), outer accessor then resolves to host B (identity 1, x = 2).
Exactly one notification fires and the derived value goes from 1 to 2,
but the connection ledger after the change still holds the one listener
connected on host A (host identity 0) and holds no listener on host B
(host identity 1): the source neither disconnects from A nor connects
on B, refuting the re-establishment stated by the claim. -/
theorem accessorBinding_host_change_listener_cex :
    hostA.hid = 0 ∧ hostB.hid = 1 ∧
    abGet "x" (abSubscribe "x" (abInit (some hostA) emptyLedger)) = some (.num 1) ∧
    (abOuterChange (some hostB) (abSubscribe "x" (abInit (some hostA) emptyLedger))).map
      (abGet "x") = .ok (some (.num 2)) ∧
    (abOuterChange (some hostB) (abSubscribe "x" (abInit (some hostA) emptyLedger))).map
      (fun s => s.notifCount) = .ok 1 ∧
    (abOuterChange (some hostB) (abSubscribe "x" (abInit (some hostA) emptyLedger))).map
      (fun s => s.ledger.active) = .ok [⟨1, 0, "notify::x"⟩] :=
  ⟨rfl, rfl, rfl, rfl, rfl, rfl⟩

/-- C3 amended: when the outer accessor of a subscribed nested binding
(either variant) changes its resolved host from A to B, exactly one
notification fires and the derived value transitions from the property
of A to the property of B, but the inner property-change listener is
neither disconnected from A nor established on B (the connection ledger
and the remembered handler id are unchanged); likewise a transition from
no resolved host to a resolved host notifies once and attaches no inner
listener. -/
theorem accessorBinding_host_change_amended :
    ∀ (A B : Host) (p : String) (L : ConnLedger),
      (abOuterChange (some B) (abSubscribe p (abInit (some A) L))).map
        (abGet p) = .ok (some (hostGet B p)) ∧
      abGet p (abSubscribe p (abInit (some A) L)) = some (hostGet A p) ∧
      (abOuterChange (some B) (abSubscribe p (abInit (some A) L))).map
        (fun s => s.notifCount) = .ok ((abSubscribe p (abInit (some A) L)).notifCount + 1) ∧
      (abOuterChange (some B) (abSubscribe p (abInit (some A) L))).map
        (fun s => s.ledger) = .ok (abSubscribe p (abInit (some A) L)).ledger ∧
      (abOuterChange (some B) (abSubscribe p (abInit (some A) L))).map
        (fun s => s.innerId) = .ok (abSubscribe p (abInit (some A) L)).innerId ∧
      (abSubscribe p (abInit none L)).innerId = none ∧
      (abSubscribe p (abInit none L)).ledger = L ∧
      (abOuterChange (some B) (abSubscribe p (abInit none L))).map
        (fun s => (s.innerId, s.ledger)) = .ok (none, L) ∧
      (abOuterChange (some B) (abSubscribe p (abInit none L))).map
        (fun s => s.notifCount) = .ok 1 ∧
      (sabOuterChange (some B) (sabSubscribe p (sabInit (some A) L))).map
        (fun s => s.ledger) = .ok (sabSubscribe p (sabInit (some A) L)).ledger ∧
      (sabOuterChange (some B) (sabSubscribe p (sabInit none L))).map
        (fun s => (s.innerId, s.ledger)) = .ok (none, L) :=
  fun _ _ _ _ => ⟨rfl, rfl, rfl, rfl, rfl, rfl, rfl, rfl, rfl, rfl, rfl⟩

/-- C4 counterexample: right after createAccessorBinding runs, before
any subscriber, the subscription on the outer accessor is already active
(the source attaches baseSub in the function body), refuting that
neither listener exists before the first subscribe; and after the
resolved host changed from A to B, unsubscribing leaves the inner
listener on A in the ledger (the teardown disconnects the remembered id
on the currently cached host B), refuting that unsubscribing always
releases both listeners. -/
theorem accessorBinding_lifecycle_cex :
    (abInit (some hostA) emptyLedger).baseSubActive = true ∧
    (abInit (some hostA) emptyLedger).innerId = none ∧
    ((abOuterChange (some hostB) (abSubscribe "x" (abInit (some hostA) emptyLedger))).bind
      abTeardown).map (fun s => s.ledger.active) = .ok [⟨1, 0, "notify::x"⟩] :=
  ⟨rfl, rfl, rfl⟩

/-- C4 amended: for both nested binding variants, the outer-accessor
listener is attached already when the binding is created, before any
subscriber; no inner listener exists before the first subscribe;
subscribing attaches the inner property-change listener on the currently
resolved host; and unsubscribing, when the resolved host is unchanged
and not disposed, disconnects that inner listener and detaches the
outer-accessor listener. -/
theorem accessorBinding_lifecycle_amended :
    ∀ (g : Host) (p : String) (L : ConnLedger),
      g.disposed = false →
      (∀ c ∈ L.active, c.connId < L.nextId) →
      (abInit (some g) L).baseSubActive = true ∧
      (abInit (some g) L).innerId = none ∧
      (abInit (some g) L).ledger = L ∧
      (abSubscribe p (abInit (some g) L)).innerId = some L.nextId ∧
      (abSubscribe p (abInit (some g) L)).ledger.active =
        L.active ++ [⟨L.nextId, g.hid, "notify::" ++ kebab p⟩] ∧
      (abTeardown (abSubscribe p (abInit (some g) L))).map
        (fun s => s.ledger.active) = .ok L.active ∧
      (abTeardown (abSubscribe p (abInit (some g) L))).map
        (fun s => s.baseSubActive) = .ok false ∧
      (sabTeardown (sabSubscribe p (sabInit (some g) L))).map
        (fun s => (s.ledger.active, s.baseSubActive)) = .ok (L.active, false) := by
  intro g p L hd hfresh
  have hfilter :
      (L.active ++ [Conn.mk L.nextId g.hid ("notify::" ++ kebab p)]).filter
        (fun c => !(c.connId == L.nextId && c.hostId == g.hid)) = L.active := by
    rw [List.filter_append]
    have h1 : L.active.filter
        (fun c => !(c.connId == L.nextId && c.hostId == g.hid)) = L.active := by
      rw [List.filter_eq_self]
      intro c hc
      have hlt := hfresh c hc
      have hne : (c.connId == L.nextId) = false := by
        simp only [beq_eq_false_iff_ne, ne_eq]
        omega
      simp [hne]
    have h2 : [Conn.mk L.nextId g.hid ("notify::" ++ kebab p)].filter
        (fun c => !(c.connId == L.nextId && c.hostId == g.hid)) = [] := by
      simp
    rw [h1, h2, List.append_nil]
  refine ⟨rfl, rfl, rfl, rfl, rfl, ?_, ?_, ?_⟩
  · simp only [abTeardown, abSubscribe, abInit, ConnLedger.connect,
      ConnLedger.disconnect, hd, if_false, Bool.false_eq_true]
    simp only [Except.map]
    exact congrArg Except.ok hfilter
  · simp only [abTeardown, abSubscribe, abInit, ConnLedger.connect,
      ConnLedger.disconnect, hd, if_false, Bool.false_eq_true]
    simp only [Except.map]
  · simp only [sabTeardown, sabSubscribe, sabInit, abTeardown, abSubscribe, abInit,
      ConnLedger.connect, ConnLedger.disconnect, hd, if_false, Bool.false_eq_true]
    simp only [Except.map]
    rw [hfilter]

/-- Witness for the amended C4 at concrete inputs: host A, property x,
empty ledger. -/
theorem accessorBinding_lifecycle_amended_witness :
    (abTeardown (abSubscribe "x" (abInit (some hostA) emptyLedger))).map
      (fun s => s.ledger.active) = .ok [] ∧
    (abTeardown (abSubscribe "x" (abInit (some hostA) emptyLedger))).map
      (fun s => s.baseSubActive) = .ok false := by
  have h := accessorBinding_lifecycle_amended hostA "x" emptyLedger rfl
    (by intro c hc; simp [emptyLedger] at hc)
  exact ⟨h.2.2.2.2.2.1, h.2.2.2.2.2.2.1⟩

/-- C5 counterexample: the teardown of createAccessorBinding, run while
the cached resolved host is already disposed, propagates the disconnect
error (the source has no try/catch there), refuting that every helper
suppresses it. -/
theorem teardown_error_propagates_cex :
    abTeardown ⟨some hostGone, true, some 1, emptyLedger, 0, true⟩ = .error () :=
  rfl

/-- C5 amended: only the teardown of createSecureBinding catches and
ignores the disconnect error of an already-disposed host; the teardowns
of createAccessorBinding and createSecureAccessorBinding and the scope
cleanup of createScopedConnection propagate it. -/
theorem teardown_error_suppression_amended :
    ∀ (L : ConnLedger) (g : Host) (cid : Nat), g.disposed = true →
      secureBindingTeardown L g cid = L ∧
      scopedConnectionCleanup L g cid = .error () ∧
      ∀ (ns : Bool) (nc : Nat) (ba : Bool),
        abTeardown ⟨some g, ns, some cid, L, nc, ba⟩ = .error () ∧
        sabTeardown ⟨some g, ns, some cid, L, nc, ba⟩ = .error () := by
  intro L g cid hd
  refine ⟨?_, ?_, fun ns nc ba => ⟨?_, ?_⟩⟩
  · simp [secureBindingTeardown, ConnLedger.disconnect, hd]
  · simp [scopedConnectionCleanup, ConnLedger.disconnect, hd]
  · simp [abTeardown, ConnLedger.disconnect, hd]
  · simp [sabTeardown, abTeardown, ConnLedger.disconnect, hd]

/-- Witness for the amended C5 at a concrete disposed host. -/
theorem teardown_error_suppression_amended_witness :
    secureBindingTeardown emptyLedger hostGone 1 = emptyLedger ∧
    abTeardown ⟨some hostGone, true, some 1, emptyLedger, 0, true⟩ = .error () := by
  have h := teardown_error_suppression_amended emptyLedger hostGone 1 rfl
  exact ⟨h.1, (h.2.2 true 0 true).1⟩

/-- Reading a field of a cons cell: the head when the key matches, the
tail lookup otherwise. -/
theorem getField_cons (k2 : String) (v2 : JSVal) (rest : List (String × JSVal))
    (k : String) :
    getField ((k2, v2) :: rest) k = if (k2 == k) then v2 else getField rest k := by
  cases h : (k2 == k) <;> simp [getField, List.find?_cons, h]

/-- Reading back the field just assigned gives the assigned value. -/
theorem getField_setField_self (fs : List (String × JSVal)) (k : String) (v : JSVal) :
    getField (setField fs k v) k = v := by
  induction fs with
  | nil => simp [setField, getField_cons, getField]
  | cons kv rest ih =>
      obtain ⟨k2, v2⟩ := kv
      by_cases h : k2 = k
      · subst h
        simp [setField, getField_cons]
      · have hb : (k2 == k) = false := by simp [h]
        simp [setField, hb, getField_cons, ih]

/-- Assigning one field leaves every other field unchanged. -/
theorem getField_setField_ne (fs : List (String × JSVal)) (k1 k : String)
    (v : JSVal) (h : k1 ≠ k) : getField (setField fs k1 v) k = getField fs k := by
  induction fs with
  | nil => simp [setField, getField_cons, getField, h]
  | cons kv rest ih =>
      obtain ⟨k2, v2⟩ := kv
      by_cases h2 : k2 = k1
      · subst h2
        have hbk : (k2 == k) = false := by simp [h]
        simp [setField, getField_cons, hbk, h]
      · have hb : (k2 == k1) = false := by simp [h2]
        simp only [setField, hb, if_false, Bool.false_eq_true]
        rw [getField_cons, getField_cons]
        cases h3 : (k2 == k) <;> simp [ih]

/-- The fold of construct never touches the notification log or the
GObject test result of the target. -/
theorem construct_fold_notifLog (f : Nat → JSVal) :
    ∀ (props : List (String × PropVal)) (st : Obj × List (String × Nat)),
      (props.foldl (constructStep f) st).1.notifLog = st.1.notifLog ∧
      (props.foldl (constructStep f) st).1.isGObj = st.1.isGObj := by
  intro props
  induction props with
  | nil => intro st; exact ⟨rfl, rfl⟩
  | cons kv rest ih =>
      intro st
      obtain ⟨k, pv⟩ := kv
      rw [List.foldl_cons]
      have hstep : (constructStep f st (k, pv)).1.notifLog = st.1.notifLog ∧
          (constructStep f st (k, pv)).1.isGObj = st.1.isGObj := by
        cases pv with
        | acc i => exact ⟨rfl, rfl⟩
        | plain v => cases v <;> exact ⟨rfl, rfl⟩
      exact ⟨((ih _).1).trans hstep.1, ((ih _).2).trans hstep.2⟩

/-- The fold of construct appends exactly one release record per
accessor-valued entry, in entry order. -/
theorem construct_fold_subs (f : Nat → JSVal) :
    ∀ (props : List (String × PropVal)) (st : Obj × List (String × Nat)),
      (props.foldl (constructStep f) st).2 = st.2 ++ constructSubsOf props := by
  intro props
  induction props with
  | nil => intro st; simp [constructSubsOf]
  | cons kv rest ih =>
      intro st
      obtain ⟨k, pv⟩ := kv
      rw [List.foldl_cons]
      cases pv with
      | acc i =>
          rw [ih _]
          simp [constructStep, constructSubsOf]
      | plain v =>
          rw [ih _]
          cases v <;> simp [constructStep, constructSubsOf]

/-- Keys never mentioned by the remaining entries keep their field
value across the fold of construct. -/
theorem construct_fold_field_preserved (f : Nat → JSVal) (k : String) :
    ∀ (props : List (String × PropVal)) (st : Obj × List (String × Nat)),
      (∀ kv ∈ props, kv.1 ≠ k) →
      getField ((props.foldl (constructStep f) st).1.fields) k =
        getField st.1.fields k := by
  intro props
  induction props with
  | nil => intro st _; rfl
  | cons kv rest ih =>
      intro st hne
      obtain ⟨k1, pv⟩ := kv
      have hk1 : k1 ≠ k := hne (k1, pv) (List.mem_cons_self _ _)
      have hrest : ∀ kv2 ∈ rest, kv2.1 ≠ k :=
        fun kv2 h2 => hne kv2 (List.mem_cons_of_mem _ h2)
      rw [List.foldl_cons]
      rw [ih _ hrest]
      cases pv with
      | acc i => exact getField_setField_ne _ _ _ _ hk1
      | plain v =>
          cases v <;> first
            | rfl
            | exact getField_setField_ne _ _ _ _ hk1

/-- Under distinct keys, an accessor-valued entry leaves its field at
the current value of its accessor after the fold of construct. -/
theorem construct_fold_field_acc (f : Nat → JSVal) (k : String) (i : Nat) :
    ∀ (props : List (String × PropVal)) (st : Obj × List (String × Nat)),
      (k, PropVal.acc i) ∈ props → (props.map Prod.fst).Nodup →
      getField ((props.foldl (constructStep f) st).1.fields) k = f i := by
  intro props
  induction props with
  | nil => intro st h _; cases h
  | cons kv rest ih =>
      intro st hmem hnd
      obtain ⟨k1, pv1⟩ := kv
      rw [List.map_cons, List.nodup_cons] at hnd
      rw [List.foldl_cons]
      rcases List.mem_cons.mp hmem with heq | hrest
      · cases heq.symm
        have hr : ∀ kv2 ∈ rest, kv2.1 ≠ k := by
          intro kv2 h2 hk2
          have hmap : kv2.1 ∈ rest.map Prod.fst := List.mem_map_of_mem Prod.fst h2
          rw [hk2] at hmap
          exact hnd.1 hmap
        rw [construct_fold_field_preserved f k rest _ hr]
        exact getField_setField_self _ _ _
      · exact ih _ hrest hnd.2

/-- Under distinct keys, a plain non-undefined entry leaves its field at
that plain value after the fold of construct. -/
theorem construct_fold_field_plain (f : Nat → JSVal) (k : String) (v : JSVal) :
    ∀ (props : List (String × PropVal)) (st : Obj × List (String × Nat)),
      (k, PropVal.plain v) ∈ props → v ≠ JSVal.undef →
      (props.map Prod.fst).Nodup →
      getField ((props.foldl (constructStep f) st).1.fields) k = v := by
  intro props
  induction props with
  | nil => intro st h _ _; cases h
  | cons kv rest ih =>
      intro st hmem hv hnd
      obtain ⟨k1, pv1⟩ := kv
      rw [List.map_cons, List.nodup_cons] at hnd
      rw [List.foldl_cons]
      rcases List.mem_cons.mp hmem with heq | hrest
      · cases heq.symm
        have hr : ∀ kv2 ∈ rest, kv2.1 ≠ k := by
          intro kv2 h2 hk2
          have hmap : kv2.1 ∈ rest.map Prod.fst := List.mem_map_of_mem Prod.fst h2
          rw [hk2] at hmap
          exact hnd.1 hmap
        rw [construct_fold_field_preserved f k rest _ hr]
        cases v with
        | undef => exact absurd rfl hv
        | null => exact getField_setField_self _ _ _
        | bool b => exact getField_setField_self _ _ _
        | num n => exact getField_setField_self _ _ _
        | str s => exact getField_setField_self _ _ _
        | arr xs => exact getField_setField_self _ _ _
      · exact ih _ hrest hv hnd.2

/-- Under distinct keys, an entry whose value is the plain undefined is
skipped: its field keeps the value it had before construct ran. -/
theorem construct_fold_field_undef (f : Nat → JSVal) (k : String) :
    ∀ (props : List (String × PropVal)) (st : Obj × List (String × Nat)),
      (k, PropVal.plain JSVal.undef) ∈ props → (props.map Prod.fst).Nodup →
      getField ((props.foldl (constructStep f) st).1.fields) k =
        getField st.1.fields k := by
  intro props
  induction props with
  | nil => intro st h _; cases h
  | cons kv rest ih =>
      intro st hmem hnd
      obtain ⟨k1, pv1⟩ := kv
      rw [List.map_cons, List.nodup_cons] at hnd
      rw [List.foldl_cons]
      rcases List.mem_cons.mp hmem with heq | hrest
      · cases heq.symm
        have hr : ∀ kv2 ∈ rest, kv2.1 ≠ k := by
          intro kv2 h2 hk2
          have hmap : kv2.1 ∈ rest.map Prod.fst := List.mem_map_of_mem Prod.fst h2
          rw [hk2] at hmap
          exact hnd.1 hmap
        exact construct_fold_field_preserved f k rest _ hr
      · have hk1 : k1 ≠ k := by
          intro hk
          have hmap : k ∈ rest.map Prod.fst := List.mem_map_of_mem Prod.fst hrest
          rw [← hk] at hmap
          exact hnd.1 hmap
        rw [ih _ hrest hnd.2]
        cases pv1 with
        | acc i => exact getField_setField_ne _ _ _ _ hk1
        | plain v =>
            cases v <;> first
              | rfl
              | exact getField_setField_ne _ _ _ _ hk1

/-- C7: under the distinct keys of a record, construct skips entries
whose value is undefined, assigns plain values directly, assigns each
accessor entry its current accessor value, returns exactly one release
record per accessor-valued entry in order, and the pushed subscription
callback re-assigns the field from the accessor and emits the kebab-case
change notification exactly when the target is a GObject instance. -/
theorem construct_correct :
    ∀ (klass : Obj) (props : List (String × PropVal)) (f : Nat → JSVal),
      (props.map Prod.fst).Nodup →
      (∀ k, (k, PropVal.plain JSVal.undef) ∈ props →
          getField (construct klass props f).1.fields k = getField klass.fields k) ∧
      (∀ k v, (k, PropVal.plain v) ∈ props → v ≠ JSVal.undef →
          getField (construct klass props f).1.fields k = v) ∧
      (∀ k i, (k, PropVal.acc i) ∈ props →
          getField (construct klass props f).1.fields k = f i) ∧
      (construct klass props f).2 = constructSubsOf props ∧
      (∀ (k : String) (i : Nat) (g2 : Nat → JSVal) (o : Obj),
          getField (constructCallback k i g2 o).fields k = g2 i ∧
          (constructCallback k i g2 o).notifLog =
            (if o.isGObj then o.notifLog ++ [kebab k] else o.notifLog)) := by
  intro klass props f hnd
  refine ⟨fun k hm => construct_fold_field_undef f k props (klass, []) hm hnd,
    fun k v hm hv => construct_fold_field_plain f k v props (klass, []) hm hv hnd,
    fun k i hm => construct_fold_field_acc f k i props (klass, []) hm hnd,
    (construct_fold_subs f props (klass, [])).trans (List.nil_append _),
    fun k i g2 o => ⟨?_, ?_⟩⟩
  · cases h : o.isGObj <;> simp [constructCallback, h, getField_setField_self]
  · cases h : o.isGObj <;> simp [constructCallback, h]

/-- Witness for C7 on the bulk-construction scenario of the spec: props
a = 1 and b = accessor currently 2; afterwards a is 1 and b is 2, one
release record exists for b, and the callback run with the accessor at 3
re-assigns b to 3. -/
theorem construct_correct_witness :
    getField (construct demoObj demoProps demoEnv).1.fields "a" = .num 1 ∧
    getField (construct demoObj demoProps demoEnv).1.fields "b" = .num 2 ∧
    (construct demoObj demoProps demoEnv).2 = [("b", 0)] ∧
    getField (constructCallback "b" 0 demoEnv3
      (construct demoObj demoProps demoEnv).1).fields "b" = .num 3 := by
  have h := construct_correct demoObj demoProps demoEnv (by decide)
  refine ⟨h.2.1 "a" (.num 1) (by simp [demoProps]) (fun hh => JSVal.noConfusion hh),
    (h.2.2.1 "b" 0 (by simp [demoProps])).trans rfl,
    (h.2.2.2.1).trans rfl,
    ((h.2.2.2.2 "b" 0 demoEnv3 (construct demoObj demoProps demoEnv).1).1).trans rfl⟩

/-- C10: construct itself never emits a change notification on the
target, GObject instance or not (assigning a plain value and assigning
the initial current value of an accessor are silent); the kebab-case
notify appears only in the subscription callback, which emits it exactly
when the target is a GObject instance; and every field whose key is not
named in the props record is left unchanged. -/
theorem construct_no_eager_notify :
    ∀ (klass : Obj) (props : List (String × PropVal)) (f : Nat → JSVal),
      (construct klass props f).1.notifLog = klass.notifLog ∧
      (construct klass props f).1.isGObj = klass.isGObj ∧
      (∀ k, (∀ kv ∈ props, kv.1 ≠ k) →
          getField (construct klass props f).1.fields k = getField klass.fields k) ∧
      (∀ (k : String) (i : Nat) (g2 : Nat → JSVal) (o : Obj),
          (constructCallback k i g2 o).notifLog =
            (if o.isGObj then o.notifLog ++ [kebab k] else o.notifLog)) := by
  intro klass props f
  refine ⟨(construct_fold_notifLog f props (klass, [])).1,
    (construct_fold_notifLog f props (klass, [])).2,
    fun k hk => construct_fold_field_preserved f k props (klass, []) hk,
    fun k i g2 o => ?_⟩
  cases h : o.isGObj <;> simp [constructCallback, h]

/-- Witness for C10 at concrete inputs: on a GObject target, the
construction of the demo props emits nothing, the field c not named in
the props keeps its prior absence, and the callback on the GObject
target emits exactly the kebab-case notification. -/
theorem construct_no_eager_notify_witness :
    (construct demoGObj demoProps demoEnv).1.notifLog = demoGObj.notifLog ∧
    getField (construct demoGObj demoProps demoEnv).1.fields "c" =
      getField demoGObj.fields "c" ∧
    (constructCallback "b" 0 demoEnv3 demoGObj).notifLog =
      (if demoGObj.isGObj then demoGObj.notifLog ++ [kebab "b"] else demoGObj.notifLog) := by
  have h := construct_no_eager_notify demoGObj demoProps demoEnv
  exact ⟨h.1, h.2.2.1 "c" (by decide), h.2.2.2 "b" 0 demoEnv3 demoGObj⟩

end GnimUtils
